import Mathlib

set_option maxRecDepth 20000

/-!
Verification development for the Aptos peer-to-peer lending dashboard.

The numeric model embeds IEEE-754 binary64 ("double") arithmetic over exact
rationals: `fl q` is the double nearest to the real number `q`
(round-to-nearest, ties-to-even, 53-bit significand, unbounded exponent —
exponent overflow and subnormals are far outside the magnitudes this
application handles).  JavaScript numbers are binary64, so `parseUsdc` and
`formatUsdc` from src/unnamed/part_001 are modelled with every arithmetic
step rounded through `fl`.

The application layer (payload builder, transaction submitter, wallet hook,
list components) is embedded as pure functions over explicit state, with the
network and wallet collaborators supplied as function-typed parameters, so a
theorem quantifying over those parameters states that no outcome depends on
them (no call is made).
-/

/-- Fuel-bounded base-2 logarithm on naturals: for `1 ≤ n < 2^fuel` it
returns the unique `l` with `2^l ≤ n < 2^(l+1)`. -/
def natLog2Aux : ℕ → ℕ → ℕ
  | 0, _ => 0
  | fuel+1, n => if n ≤ 1 then 0 else natLog2Aux fuel (n / 2) + 1

/-- Base-2 logarithm with fuel 1000 (exact for every `n < 2^1000`). -/
def natLog2 (n : ℕ) : ℕ := natLog2Aux 1000 n

/-- Binade exponent of a positive rational: the unique `e` with
`2^e ≤ q < 2^(e+1)` (for `q` whose numerator and denominator are below
`2^1000`). -/
def ratLog2 (q : ℚ) : ℤ :=
  if (2:ℚ)^((natLog2 q.num.natAbs : ℤ) - (natLog2 q.den : ℤ)) ≤ q
  then (natLog2 q.num.natAbs : ℤ) - (natLog2 q.den : ℤ)
  else (natLog2 q.num.natAbs : ℤ) - (natLog2 q.den : ℤ) - 1

/-- Exponent of the least-significant significand bit of the binary64 value
nearest to a positive rational `q`. -/
def flE (q : ℚ) : ℤ := ratLog2 q - 52

/-- 53-bit significand candidate: `q` truncated to a multiple of `2^(flE q)`. -/
def flM (q : ℚ) : ℤ := ⌊q / 2^(flE q)⌋

/-- Round a positive rational to the nearest binary64 value
(round-to-nearest, ties-to-even). -/
def flPos (q : ℚ) : ℚ :=
  if 2*(q - flM q * 2^(flE q)) < 2^(flE q) then flM q * 2^(flE q)
  else if (2:ℚ)^(flE q) < 2*(q - flM q * 2^(flE q)) then (flM q + 1) * 2^(flE q)
  else if flM q % 2 = 0 then flM q * 2^(flE q) else (flM q + 1) * 2^(flE q)

/-- Round a rational to the nearest binary64 value (IEEE-754 rounding is
sign-symmetric). -/
def fl (q : ℚ) : ℚ := if q = 0 then 0 else if q < 0 then -flPos (-q) else flPos q

/-- Model of `parseUsdc` (src/unnamed/part_001, lines 40-42):
`BigInt(Math.floor(amount * 1e6))`.  The argument `a` is the exact value of
the incoming JavaScript number; the multiplication `amount * 1e6` is a
binary64 multiplication, hence rounded through `fl`; `Math.floor` and the
`BigInt` conversion are exact. -/
def parseUsdc (a : ℚ) : ℤ := ⌊fl (a * 1000000)⌋

/-- Model of `formatUsdc` (src/unnamed/part_001, lines 35-37):
`Number(amount) / 1e6`.  `Number` rounds the big integer to a double and the
division is a binary64 division, hence rounded through `fl`. -/
def formatUsdc (u : ℤ) : ℚ := fl (fl (u : ℚ) / 1000000)

/-- Deployed contract address (src/unnamed/part_001, line 14). -/
def CONTRACT_ADDRESS : String :=
  "0x4733658581be088fe23e99fce8a8de7e8fe975682f402c4394461521aa246706"

/-- Module name (src/unnamed/part_001, line 17). -/
def MODULE_NAME : String := "lending"

/-- USDC coin type (src/unnamed/part_001, line 23). -/
def USDC_COIN : String :=
  "0xf22bede237a07e121b56d91a491eb7bcdfd1f5907926a9e58338f964a01b17fa::asset::USDC"

/-- A positional argument of an entry-function payload (the source passes a
mix of strings and numbers in `any[]`). -/
inductive FnArg where
  | str (s : String)
  | num (x : ℚ)
deriving DecidableEq

/-- Typed transaction request descriptor
(`InputGenerateTransactionPayloadData`); the field `func` models the
source's `function` field, which is a reserved word in Lean. -/
structure EntryFunctionPayload where
  func : String
  typeArguments : List String
  functionArguments : List FnArg
deriving DecidableEq

/-- Model of `createEntryFunctionPayload` (src/unnamed/part_001,
lines 45-55). -/
def createEntryFunctionPayload (functionName : String) (typeArgs : List String)
    (args : List FnArg) : EntryFunctionPayload :=
  { func := CONTRACT_ADDRESS ++ "::" ++ MODULE_NAME ++ "::" ++ functionName,
    typeArguments := typeArgs,
    functionArguments := args }

/-- A thrown JavaScript error, reduced to its `message` property (which may
be absent or empty, both falsy). -/
abbrev JsErr := Option String

/-- Model of `error.message || fallback`: the fallback replaces an absent or
empty message. -/
def jsMessageOr (e : JsErr) (fallback : String) : String :=
  match e with
  | some m => if m = "" then fallback else m
  | none => fallback

/-- The connected account as the dApp sees it: an address string (signing is
delegated to the wallet collaborator). -/
structure Account where
  address : String
deriving DecidableEq

/-- A raw transaction produced by `aptos.transaction.build.simple`
(src/unnamed/part_001, lines 64-72). -/
structure SimpleTransaction where
  sender : String
  data : EntryFunctionPayload
  maxGasAmount : ℕ
  gasUnitPrice : ℕ
deriving DecidableEq

/-- Response of `aptos.transaction.submit.simple` (only the hash is used). -/
structure PendingTransactionResponse where
  hash : String
deriving DecidableEq

/-- The discriminated result returned by `submitTransaction`
(src/unnamed/part_001, lines 91-101): `{success: true, hash, response}` or
`{success: false, error}`.  These two shapes are the only outcomes. -/
inductive TxResult where
  | success (hash : String) (response : String)
  | failure (error : String)
deriving DecidableEq

/-- The four asynchronous ledger/wallet collaborators consumed by
`submitTransaction`, as function-typed parameters: build, sign, submit and
wait-for-confirmation.  Each may throw (return `Except.error`). -/
structure Oracles where
  build : Account → EntryFunctionPayload → ℕ → ℕ → Except JsErr SimpleTransaction
  sign : Account → SimpleTransaction → Except JsErr String
  submit : SimpleTransaction → String → Except JsErr PendingTransactionResponse
  wait : String → Except JsErr String

/-- The `try` block of `submitTransaction` (src/unnamed/part_001,
lines 62-95): build with gas options (1000, 100), sign, submit, then wait on
the returned hash; any stage may throw. -/
def submitTransactionTry (sender : Account) (payload : EntryFunctionPayload)
    (o : Oracles) : Except JsErr (String × String) :=
  match o.build sender payload 1000 100 with
  | .error e => .error e
  | .ok rawTxn =>
    match o.sign sender rawTxn with
    | .error e => .error e
    | .ok senderAuthenticator =>
      match o.submit rawTxn senderAuthenticator with
      | .error e => .error e
      | .ok pendingTxn =>
        match o.wait pendingTxn.hash with
        | .error e => .error e
        | .ok response => .ok (pendingTxn.hash, response)

/-- Model of `submitTransaction` (src/unnamed/part_001, lines 58-103): the
`catch` turns any thrown error into `{success: false, error: error.message
|| 'Transaction failed'}`. -/
def submitTransaction (sender : Account) (payload : EntryFunctionPayload)
    (o : Oracles) : TxResult :=
  match submitTransactionTry sender payload o with
  | .ok (h, r) => .success h r
  | .error e => .failure (jsMessageOr e "Transaction failed")

/-- Connection state visible to `useLendingContract`
(src/src/hooks/useLendingContract.ts, line 38). -/
structure WalletState where
  isConnected : Bool
  account : Option Account

/-- Model of `ensureConnected` (src/src/hooks/useLendingContract.ts,
lines 41-46): throws unless both `isConnected` and `account` hold. -/
def ensureConnected (st : WalletState) : Except String Account :=
  match st.isConnected, st.account with
  | true, some a => .ok a
  | true, none => .error "Please connect your wallet first"
  | false, _ => .error "Please connect your wallet first"

/-- Model of `createLoanOffer` (src/src/hooks/useLendingContract.ts,
lines 49-67). -/
def createLoanOffer (st : WalletState) (o : Oracles)
    (amount interestRate duration collateralRatio : ℚ) : Except String TxResult :=
  match ensureConnected st with
  | .error msg => .error msg
  | .ok currentAccount =>
    .ok (submitTransaction currentAccount
      (createEntryFunctionPayload "create_offer" [USDC_COIN]
        [FnArg.str (toString (parseUsdc amount)), FnArg.num interestRate,
         FnArg.num duration, FnArg.num collateralRatio]) o)

/-- Model of `cancelLoanOffer` (src/src/hooks/useLendingContract.ts,
lines 70-80). -/
def cancelLoanOffer (st : WalletState) (o : Oracles) (offerId : String) :
    Except String TxResult :=
  match ensureConnected st with
  | .error msg => .error msg
  | .ok currentAccount =>
    .ok (submitTransaction currentAccount
      (createEntryFunctionPayload "cancel_offer" [USDC_COIN] [FnArg.str offerId]) o)

/-- Model of `requestLoan` (src/src/hooks/useLendingContract.ts,
lines 83-97). -/
def requestLoan (st : WalletState) (o : Oracles) (offerId : String)
    (amount collateralAmount : ℚ) : Except String TxResult :=
  match ensureConnected st with
  | .error msg => .error msg
  | .ok currentAccount =>
    .ok (submitTransaction currentAccount
      (createEntryFunctionPayload "request_loan" [USDC_COIN]
        [FnArg.str offerId, FnArg.str (toString (parseUsdc amount)),
         FnArg.str (toString (parseUsdc collateralAmount))]) o)

/-- Model of `approveLoanRequest` (src/src/hooks/useLendingContract.ts,
lines 100-110). -/
def approveLoanRequest (st : WalletState) (o : Oracles) (requestId : String) :
    Except String TxResult :=
  match ensureConnected st with
  | .error msg => .error msg
  | .ok currentAccount =>
    .ok (submitTransaction currentAccount
      (createEntryFunctionPayload "approve_loan" [USDC_COIN] [FnArg.str requestId]) o)

/-- Model of `repayLoan` (src/src/hooks/useLendingContract.ts,
lines 113-126). -/
def repayLoan (st : WalletState) (o : Oracles) (loanId : String) (amount : ℚ) :
    Except String TxResult :=
  match ensureConnected st with
  | .error msg => .error msg
  | .ok currentAccount =>
    .ok (submitTransaction currentAccount
      (createEntryFunctionPayload "repay_loan" [USDC_COIN]
        [FnArg.str loanId, FnArg.str (toString (parseUsdc amount))]) o)

/-- Stateless view-function request (`aptos.view` payload). -/
structure ViewPayload where
  func : String
  typeArguments : List String
  functionArguments : List String
deriving DecidableEq

/-- Raw on-chain offer record as returned by the `get_all_offers` view. -/
structure RawOffer where
  id : String
  lender : String
  amount : ℤ
  interest_rate : ℤ
  duration_seconds : ℤ
  collateral_ratio : ℤ
  status : String

/-- Typed offer entity of the hook (src/src/hooks/useLendingContract.ts,
lines 18-26). -/
structure LoanOffer where
  id : String
  lender : String
  amount : ℚ
  interestRate : ℚ
  duration : ℚ
  collateralRatio : ℚ
  status : String

/-- Offer projection (src/src/hooks/useLendingContract.ts, lines 141-149):
atomic units through `formatUsdc`, basis points through a binary64 division
by 100, status lower-cased. -/
def mapRawOffer (o : RawOffer) : LoanOffer :=
  { id := o.id, lender := o.lender, amount := formatUsdc o.amount,
    interestRate := fl (fl (o.interest_rate : ℚ) / 100),
    duration := fl (o.duration_seconds : ℚ),
    collateralRatio := fl (fl (o.collateral_ratio : ℚ) / 100),
    status := o.status.toLower }

/-- Raw on-chain request record as returned by the request views. -/
structure RawRequest where
  id : String
  borrower : String
  amount : ℤ
  duration_seconds : ℤ
  status : String
  offer_id : String

/-- Typed request entity of the hook (src/src/hooks/useLendingContract.ts,
lines 28-35). -/
structure LoanRequestView where
  id : String
  borrower : String
  amount : ℚ
  duration : ℚ
  status : String
  offerId : String

/-- Request projection (src/src/hooks/useLendingContract.ts,
lines 169-176). -/
def mapRawRequest (r : RawRequest) : LoanRequestView :=
  { id := r.id, borrower := r.borrower, amount := formatUsdc r.amount,
    duration := fl (r.duration_seconds : ℚ),
    status := r.status.toLower, offerId := r.offer_id }

/-- Model of `getLoanOffers` (src/src/hooks/useLendingContract.ts,
lines 129-154): empty list when no account is connected, otherwise a view
call whose failure becomes a thrown `Error`. -/
def getLoanOffers (account : Option Account)
    (view : ViewPayload → Except JsErr (List RawOffer)) :
    Except String (List LoanOffer) :=
  match account with
  | none => .ok []
  | some _ =>
    match view { func := CONTRACT_ADDRESS ++ "::" ++ MODULE_NAME ++ "::get_all_offers",
                 typeArguments := [USDC_COIN], functionArguments := [] } with
    | .ok response => .ok (response.map mapRawOffer)
    | .error _ => .error "Failed to fetch loan offers"

/-- Model of `getLoanRequests` (src/src/hooks/useLendingContract.ts,
lines 157-181). -/
def getLoanRequests (account : Option Account) (offerId : Option String)
    (view : ViewPayload → Except JsErr (List RawRequest)) :
    Except String (List LoanRequestView) :=
  match account with
  | none => .ok []
  | some _ =>
    match view { func := CONTRACT_ADDRESS ++ "::" ++ MODULE_NAME ++ "::" ++
                   (match offerId with | some _ => "get_offer_requests" | none => "get_all_requests"),
                 typeArguments := [USDC_COIN],
                 functionArguments := match offerId with | some oid => [oid] | none => [] } with
    | .ok response => .ok (response.map mapRawRequest)
    | .error _ => .error "Failed to fetch loan requests"

/-- Model of `getUserLoans` (src/src/hooks/useLendingContract.ts,
lines 184-208). -/
def getUserLoans (account : Option Account)
    (view : ViewPayload → Except JsErr (List RawRequest)) :
    Except String (List LoanRequestView) :=
  match account with
  | none => .ok []
  | some acct =>
    match view { func := CONTRACT_ADDRESS ++ "::" ++ MODULE_NAME ++ "::get_user_loans",
                 typeArguments := [USDC_COIN], functionArguments := [acct.address] } with
    | .ok response => .ok (response.map mapRawRequest)
    | .error _ => .error "Failed to fetch user loans"

/-- State owned by `WalletProviderInner`
(src/src/components/WalletProvider.tsx, lines 46-47): the `isConnecting`
flag and the locally held account object. -/
structure SessionState where
  isConnecting : Bool
  accountObj : Option Account
deriving DecidableEq

/-- An invocation of the underlying wallet-adapter collaborator. -/
inductive WalletCall where
  | connectCall (walletName : String)
  | disconnectCall
deriving DecidableEq

/-- Observable outcome of a `connect`/`disconnect` invocation: the state
after the call settles, the list of wallet-adapter calls it made, and
whether it rethrew an error. -/
structure WalletOpResult where
  finalState : SessionState
  calls : List WalletCall
  result : Except JsErr Unit

/-- Model of `connect` (src/src/components/WalletProvider.tsx,
lines 86-96): sets `isConnecting`, always invokes `connectWallet` (the
in-flight flag is never consulted), rethrows on error, and the `finally`
clears the flag. -/
def connect (st : SessionState) (connectWallet : String → Except JsErr Unit)
    (walletName : String) : WalletOpResult :=
  { finalState := { isConnecting := false, accountObj := st.accountObj },
    calls := [WalletCall.connectCall walletName],
    result := connectWallet walletName }

/-- Model of `disconnect` (src/src/components/WalletProvider.tsx,
lines 98-109): always invokes `disconnectWallet`; on success also clears the
account object; the `finally` clears the flag. -/
def disconnect (st : SessionState) (disconnectWallet : Except JsErr Unit) :
    WalletOpResult :=
  match disconnectWallet with
  | .ok _ =>
    { finalState := { isConnecting := false, accountObj := none },
      calls := [WalletCall.disconnectCall], result := .ok () }
  | .error e =>
    { finalState := { isConnecting := false, accountObj := st.accountObj },
      calls := [WalletCall.disconnectCall], result := .error e }

/-- On-chain loan request record as stored in the `loan_requests` table
(fields used by src/unnamed/part_000). -/
structure LoanRequestRecord where
  request_id : ℕ
  borrower : String
  lender : String
  loan_amount : ℕ
  collateral_amount : ℕ
  borrower_details_hash : String
  collateral_details_hash : String
  status : ℕ
deriving DecidableEq

/-- Model of `fetchRequests` (src/unnamed/part_000, lines 158-191): returns
early when no account is connected; otherwise fetches table items for every
key `0 ≤ i < totalRequests` in key order and filters, client-side, to the
records whose `lender` equals the connected address and whose `status` is 0
(pending). -/
def fetchRequests (account : Option Account) (table : ℕ → LoanRequestRecord)
    (totalRequests : ℕ) : List LoanRequestRecord :=
  match account with
  | none => []
  | some acct =>
    ((List.range totalRequests).map table).filter
      (fun req => req.lender == acct.address && req.status == 0)

/-- Per-request action status entry (src/unnamed/part_000, line 155):
`{loading, error}` keyed by request id. -/
structure ActionStatus where
  loading : Bool
  error : Option String
deriving DecidableEq

/-- Model of `setActionStatus(prev => ({...prev, [requestId]: v}))`: a
single-key functional update of the status map. -/
def setStatus (m : String → Option ActionStatus) (k : String) (v : ActionStatus) :
    String → Option ActionStatus :=
  fun x => if x = k then some v else m x

/-- The `data` field of an `InputTransactionData`
(src/unnamed/part_000, lines 211-216). -/
structure InputTxData where
  func : String
  functionArguments : List FnArg
deriving DecidableEq

/-- Model of `handleApprove` (src/unnamed/part_000, lines 197-227) returning
the final status map and whether the list was refreshed.  `moduleAddress`
models the `NEXT_PUBLIC_MODULE_ADDRESS` environment value, `timestamp`
models `Date.now()`, `signAndSubmit` the wallet's
`signAndSubmitTransaction` (returning the transaction hash) and `waitO` the
`aptos.waitForTransaction` call. -/
def handleApprove (account : Option Account)
    (statusMap : String → Option ActionStatus)
    (approvalFiles : String → Option String) (moduleAddress : String)
    (timestamp : ℕ) (signAndSubmit : InputTxData → Except JsErr String)
    (waitO : String → Except JsErr Unit) (requestId : String) :
    (String → Option ActionStatus) × Bool :=
  match account with
  | none => (statusMap, false)
  | some _ =>
    match approvalFiles requestId with
    | none =>
      (setStatus statusMap requestId
        { loading := false, error := some "Please upload an approval letter." }, false)
    | some _ =>
      let m1 := setStatus statusMap requestId { loading := true, error := none }
      let tx : InputTxData :=
        { func := moduleAddress ++ "::lending::approve_loan_request",
          functionArguments :=
            [FnArg.str requestId, FnArg.str ("dummy_approval_" ++ toString timestamp)] }
      match signAndSubmit tx with
      | .error e =>
        (setStatus m1 requestId
          { loading := false, error := some (jsMessageOr e "An error occurred.") }, false)
      | .ok hash =>
        match waitO hash with
        | .error e =>
          (setStatus m1 requestId
            { loading := false, error := some (jsMessageOr e "An error occurred.") }, false)
        | .ok _ => (setStatus m1 requestId { loading := false, error := none }, true)

/-- Collaborator fixture in which every stage succeeds. -/
def okOracles : Oracles :=
  { build := fun acct payload g1 g2 =>
      .ok { sender := acct.address, data := payload, maxGasAmount := g1, gasUnitPrice := g2 },
    sign := fun _ _ => .ok "authenticator",
    submit := fun _ _ => .ok { hash := "0xhash" },
    wait := fun h => .ok ("committed:" ++ h) }

/-- Collaborator fixture in which the confirmation wait exceeds its timeout
and throws (the SDK's `WaitForTransactionError`). -/
def timeoutOracles : Oracles :=
  { build := fun acct payload g1 g2 =>
      .ok { sender := acct.address, data := payload, maxGasAmount := g1, gasUnitPrice := g2 },
    sign := fun _ _ => .ok "authenticator",
    submit := fun _ _ => .ok { hash := "0xhash" },
    wait := fun _ =>
      .error (some "transaction 0xhash timed out in pending state after 20 seconds") }

/-- A disconnected wallet state. -/
def stDisconnected : WalletState := { isConnected := false, account := none }

/-- A connected wallet state whose identity is the lender of offer 2 in the
sample table below. -/
def stConnected : WalletState := { isConnected := true, account := some { address := "0xlender2" } }

/-- Sample ledger table of five loan requests (ids 0-4): ids 1 and 3 are
pending requests addressed to `0xlender2`, id 2 is addressed to `0xlender2`
but already approved, ids 0 and 4 belong to another lender. -/
def sampleTable : ℕ → LoanRequestRecord :=
  fun i =>
    { request_id := i,
      borrower := "0xborrower" ++ toString i,
      lender := if i = 0 ∨ i = 4 then "0xother" else "0xlender2",
      loan_amount := 1000000 * (i + 1),
      collateral_amount := 2000000 * (i + 1),
      borrower_details_hash := "dummy_borrower_" ++ toString i,
      collateral_details_hash := "dummy_collateral_" ++ toString i,
      status := if i = 2 then 1 else if i = 4 then 2 else 0 }

/-! ## Theorems -/

theorem jsMessageOr_ne_empty (e : JsErr) (fb : String) (h : fb ≠ "") :
    jsMessageOr e fb ≠ "" := by
  cases e with
  | none => simpa [jsMessageOr] using h
  | some m =>
    by_cases hm : m = "" <;> simp [jsMessageOr, hm, h]

theorem ensureConnected_error (st : WalletState)
    (h : st.isConnected = false ∨ st.account = none) :
    ensureConnected st = .error "Please connect your wallet first" := by
  rcases h with h | h
  · unfold ensureConnected
    rw [h]
  · unfold ensureConnected
    rw [h]
    cases st.isConnected <;> rfl

/-- C2: for every connected identity and every list of loan requests fetched
from the ledger, the lender's pending-requests view returns exactly those
requests whose `lender` field equals the connected identity's address and
whose status is pending (code 0), in ascending numeric id order, the filter
being applied client-side after fetching all records. -/
theorem fetchRequests_pending_view (table : ℕ → LoanRequestRecord) (n : ℕ)
    (acct : Account) (r : LoanRequestRecord)
    (hid : ∀ i, i < n → (table i).request_id = i) :
    (r ∈ fetchRequests (some acct) table n ↔
      ((∃ i, i < n ∧ table i = r) ∧ r.lender = acct.address ∧ r.status = 0)) ∧
    fetchRequests (some acct) table n =
      ((List.range n).map table).filter
        (fun req => req.lender == acct.address && req.status == 0) ∧
    (fetchRequests (some acct) table n).Pairwise
      (fun r1 r2 => r1.request_id < r2.request_id) := by
  refine ⟨?_, rfl, ?_⟩
  · simp only [fetchRequests, List.mem_filter, List.mem_map, List.mem_range,
      Bool.and_eq_true, beq_iff_eq]
    try tauto
  · have h1 : (List.range n).Pairwise (· < ·) := List.pairwise_lt_range n
    have h2 : ((List.range n).map table).Pairwise
        (fun r1 r2 => r1.request_id < r2.request_id) := by
      rw [List.pairwise_map]
      refine List.Pairwise.imp_of_mem ?_ h1
      intro a b ha hb hab
      rw [hid a (List.mem_range.mp ha), hid b (List.mem_range.mp hb)]
      exact hab
    exact List.Pairwise.sublist (List.filter_sublist _) h2

theorem fetchRequests_pending_view_witness :
    (sampleTable 1 ∈ fetchRequests (some { address := "0xlender2" }) sampleTable 5 ↔
      ((∃ i, i < 5 ∧ sampleTable i = sampleTable 1) ∧
        (sampleTable 1).lender = "0xlender2" ∧ (sampleTable 1).status = 0)) ∧
    fetchRequests (some { address := "0xlender2" }) sampleTable 5 =
      ((List.range 5).map sampleTable).filter
        (fun req => req.lender == "0xlender2" && req.status == 0) ∧
    (fetchRequests (some { address := "0xlender2" }) sampleTable 5).Pairwise
      (fun r1 r2 => r1.request_id < r2.request_id) :=
  fetchRequests_pending_view sampleTable 5 { address := "0xlender2" } (sampleTable 1)
    (by decide)

/-- C3: every protocol action invoked while the session identity is
disconnected (`isConnected` false or `account` null) fails with the identity
error, and—because the result is the same for every choice of the ledger and
wallet collaborators—no payload result is produced and no network call is
attempted. -/
theorem actions_require_connection (st : WalletState) (o : Oracles)
    (amount interestRate duration collateralRatio amount2 collateralAmount amount3 : ℚ)
    (offerId requestId loanId : String)
    (h : st.isConnected = false ∨ st.account = none) :
    createLoanOffer st o amount interestRate duration collateralRatio =
        .error "Please connect your wallet first" ∧
    cancelLoanOffer st o offerId = .error "Please connect your wallet first" ∧
    requestLoan st o offerId amount2 collateralAmount =
        .error "Please connect your wallet first" ∧
    approveLoanRequest st o requestId = .error "Please connect your wallet first" ∧
    repayLoan st o loanId amount3 = .error "Please connect your wallet first" := by
  have he := ensureConnected_error st h
  refine ⟨?_, ?_, ?_, ?_, ?_⟩ <;>
    simp [createLoanOffer, cancelLoanOffer, requestLoan, approveLoanRequest,
      repayLoan, he]

theorem actions_require_connection_witness :
    createLoanOffer stDisconnected okOracles 100 5 30 150 =
        .error "Please connect your wallet first" ∧
    cancelLoanOffer stDisconnected okOracles "0" =
        .error "Please connect your wallet first" ∧
    requestLoan stDisconnected okOracles "0" 50 75 =
        .error "Please connect your wallet first" ∧
    approveLoanRequest stDisconnected okOracles "1" =
        .error "Please connect your wallet first" ∧
    repayLoan stDisconnected okOracles "2" 25 =
        .error "Please connect your wallet first" :=
  actions_require_connection stDisconnected okOracles 100 5 30 150 50 75 25
    "0" "1" "2" (Or.inl rfl)

/-- C4 counterexample: a confirmation wait that exceeds its timeout throws,
and the catch-all of `submitTransaction` turns it into the ordinary
`{success: false, error}` outcome — `TxResult` has no third, "unknown"
shape, so the timeout outcome is not distinct from the failure outcome. -/
theorem timeout_counterexample :
    submitTransaction { address := "0xlender2" }
      (createEntryFunctionPayload "approve_loan" [USDC_COIN] [FnArg.str "2"])
      timeoutOracles =
    TxResult.failure "transaction 0xhash timed out in pending state after 20 seconds" := by
  rfl

/-- C4 amended: a confirmation wait that exceeds its timeout resolves to the
uniform failure outcome (`success = false` carrying the timeout's message);
no outcome distinct from "confirmed" and "failed" exists. -/
theorem timeout_resolves_to_failure (o : Oracles) (sender : Account)
    (payload : EntryFunctionPayload) (raw : SimpleTransaction) (auth : String)
    (pend : PendingTransactionResponse) (e : JsErr)
    (hb : o.build sender payload 1000 100 = .ok raw)
    (hs : o.sign sender raw = .ok auth)
    (hsub : o.submit raw auth = .ok pend)
    (hw : o.wait pend.hash = .error e) :
    submitTransaction sender payload o =
      .failure (jsMessageOr e "Transaction failed") := by
  simp [submitTransaction, submitTransactionTry, hb, hs, hsub, hw]

theorem timeout_resolves_to_failure_witness :
    submitTransaction { address := "0xborrower" }
      (createEntryFunctionPayload "repay_loan" [USDC_COIN] [FnArg.str "3"])
      timeoutOracles =
    .failure (jsMessageOr
      (some "transaction 0xhash timed out in pending state after 20 seconds")
      "Transaction failed") :=
  timeout_resolves_to_failure timeoutOracles { address := "0xborrower" }
    (createEntryFunctionPayload "repay_loan" [USDC_COIN] [FnArg.str "3"])
    { sender := "0xborrower",
      data := createEntryFunctionPayload "repay_loan" [USDC_COIN] [FnArg.str "3"],
      maxGasAmount := 1000, gasUnitPrice := 100 }
    "authenticator" { hash := "0xhash" }
    (some "transaction 0xhash timed out in pending state after 20 seconds")
    rfl rfl rfl rfl

/-- C5 counterexample: with a connect already in flight
(`isConnecting = true`), a new `connect` call is not suppressed — it still
invokes the underlying wallet adapter, because neither `connect` nor
`disconnect` ever consults the in-flight flag. -/
theorem reentrancy_counterexample :
    (connect { isConnecting := true, accountObj := none }
        (fun _ => Except.ok ()) "Petra").calls =
      [WalletCall.connectCall "Petra"] := rfl

/-- C5 amended: `connect` and `disconnect` set the `isConnecting` flag for
the duration of the call but never check it: a call issued while another is
in flight proceeds and invokes the wallet adapter exactly as a call on an
idle session does. -/
theorem no_reentrancy_guard (st : SessionState)
    (connectWallet : String → Except JsErr Unit) (disconnectWallet : Except JsErr Unit)
    (walletName : String) :
    (connect st connectWallet walletName).calls = [WalletCall.connectCall walletName] ∧
    (connect st connectWallet walletName).result = connectWallet walletName ∧
    (disconnect st disconnectWallet).calls = [WalletCall.disconnectCall] := by
  refine ⟨rfl, rfl, ?_⟩
  unfold disconnect
  cases disconnectWallet <;> rfl

/-- C7: `submitTransaction` never throws past its own boundary: for every
choice of collaborators it returns either the success outcome carrying the
hash produced by the submit stage, or the failure outcome carrying a
non-empty human-readable reason string. -/
theorem submitTransaction_discriminated (o : Oracles) (sender : Account)
    (payload : EntryFunctionPayload) :
    (∃ raw auth pend resp,
      o.build sender payload 1000 100 = .ok raw ∧ o.sign sender raw = .ok auth ∧
      o.submit raw auth = .ok pend ∧ o.wait pend.hash = .ok resp ∧
      submitTransaction sender payload o = .success pend.hash resp) ∨
    (∃ msg, submitTransaction sender payload o = .failure msg ∧ msg ≠ "") := by
  cases hb : o.build sender payload 1000 100 with
  | error e =>
    refine Or.inr ⟨jsMessageOr e "Transaction failed", ?_,
      jsMessageOr_ne_empty e "Transaction failed" (by decide)⟩
    simp [submitTransaction, submitTransactionTry, hb]
  | ok raw =>
    cases hs : o.sign sender raw with
    | error e =>
      refine Or.inr ⟨jsMessageOr e "Transaction failed", ?_,
        jsMessageOr_ne_empty e "Transaction failed" (by decide)⟩
      simp [submitTransaction, submitTransactionTry, hb, hs]
    | ok auth =>
      cases hsub : o.submit raw auth with
      | error e =>
        refine Or.inr ⟨jsMessageOr e "Transaction failed", ?_,
          jsMessageOr_ne_empty e "Transaction failed" (by decide)⟩
        simp [submitTransaction, submitTransactionTry, hb, hs, hsub]
      | ok pend =>
        cases hw : o.wait pend.hash with
        | error e =>
          refine Or.inr ⟨jsMessageOr e "Transaction failed", ?_,
            jsMessageOr_ne_empty e "Transaction failed" (by decide)⟩
          simp [submitTransaction, submitTransactionTry, hb, hs, hsub, hw]
        | ok resp =>
          exact Or.inl ⟨raw, auth, pend, resp, rfl, hs, hsub, hw,
            by simp [submitTransaction, submitTransactionTry, hb, hs, hsub, hw]⟩

/-- C9: resolving an approve action on request id `r1` (success or failure,
including the missing-approval-letter path) updates only the pending-action
status entry keyed `r1`; the entry of every other request id `r2` is left
unchanged. -/
theorem handleApprove_frame (account : Option Account)
    (statusMap : String → Option ActionStatus) (approvalFiles : String → Option String)
    (moduleAddress : String) (timestamp : ℕ)
    (signAndSubmit : InputTxData → Except JsErr String)
    (waitO : String → Except JsErr Unit) (r1 r2 : String) (h : r2 ≠ r1) :
    (handleApprove account statusMap approvalFiles moduleAddress timestamp
        signAndSubmit waitO r1).1 r2 = statusMap r2 := by
  cases account with
  | none => rfl
  | some a =>
    cases hf : approvalFiles r1 with
    | none => simp [handleApprove, hf, setStatus, h]
    | some f =>
      cases hs : signAndSubmit
          { func := moduleAddress ++ "::lending::approve_loan_request",
            functionArguments :=
              [FnArg.str r1, FnArg.str ("dummy_approval_" ++ toString timestamp)] } with
      | error e => simp [handleApprove, hf, hs, setStatus, h]
      | ok hash =>
        cases hw : waitO hash with
        | error e => simp [handleApprove, hf, hs, hw, setStatus, h]
        | ok u => simp [handleApprove, hf, hs, hw, setStatus, h]

theorem handleApprove_frame_witness :
    (handleApprove (some { address := "0xlender2" }) (fun _ => none)
        (fun x => if x = "1" then some "letter.pdf" else none) "0xmod" 1700000000000
        (fun _ => .error (some "User rejected the request")) (fun _ => .ok ())
        "1").1 "3" = none :=
  handleApprove_frame (some { address := "0xlender2" }) (fun _ => none)
    (fun x => if x = "1" then some "letter.pdf" else none) "0xmod" 1700000000000
    (fun _ => .error (some "User rejected the request")) (fun _ => .ok ())
    "1" "3" (by decide)

/-- C10: when no account is connected, each read view returns an empty list
without error and without depending on the view collaborator (no ledger
call), while every write action of the same hook throws the identity
error. -/
theorem views_empty_when_disconnected (st : WalletState)
    (viewOffers : ViewPayload → Except JsErr (List RawOffer))
    (viewRequests viewLoans : ViewPayload → Except JsErr (List RawRequest))
    (offerId : Option String) (o : Oracles)
    (amount interestRate duration collateralRatio amount2 collateralAmount amount3 : ℚ)
    (offerIdS requestId loanId : String)
    (h : st.account = none) :
    getLoanOffers st.account viewOffers = .ok [] ∧
    getLoanRequests st.account offerId viewRequests = .ok [] ∧
    getUserLoans st.account viewLoans = .ok [] ∧
    createLoanOffer st o amount interestRate duration collateralRatio =
        .error "Please connect your wallet first" ∧
    cancelLoanOffer st o offerIdS = .error "Please connect your wallet first" ∧
    requestLoan st o offerIdS amount2 collateralAmount =
        .error "Please connect your wallet first" ∧
    approveLoanRequest st o requestId = .error "Please connect your wallet first" ∧
    repayLoan st o loanId amount3 = .error "Please connect your wallet first" := by
  have he := ensureConnected_error st (Or.inr h)
  rw [h]
  refine ⟨rfl, rfl, rfl, ?_, ?_, ?_, ?_, ?_⟩ <;>
    simp [createLoanOffer, cancelLoanOffer, requestLoan, approveLoanRequest,
      repayLoan, he]

theorem views_empty_when_disconnected_witness :
    getLoanOffers stDisconnected.account (fun _ => .error none) = .ok [] ∧
    getLoanRequests stDisconnected.account (some "7") (fun _ => .error none) = .ok [] ∧
    getUserLoans stDisconnected.account (fun _ => .error none) = .ok [] ∧
    createLoanOffer stDisconnected okOracles 10 5 30 150 =
        .error "Please connect your wallet first" ∧
    cancelLoanOffer stDisconnected okOracles "0" =
        .error "Please connect your wallet first" ∧
    requestLoan stDisconnected okOracles "0" 50 75 =
        .error "Please connect your wallet first" ∧
    approveLoanRequest stDisconnected okOracles "1" =
        .error "Please connect your wallet first" ∧
    repayLoan stDisconnected okOracles "2" 25 =
        .error "Please connect your wallet first" :=
  views_empty_when_disconnected stDisconnected (fun _ => .error none)
    (fun _ => .error none) (fun _ => .error none) (some "7") okOracles
    10 5 30 150 50 75 25 "0" "1" "2" rfl

/-! ### Binary64 model: evaluation and correctness lemmas -/

theorem flPos_eval_lo (q : ℚ) (e m : ℤ) (h1 : flE q = e) (h2 : ⌊q / 2^e⌋ = m)
    (h3 : 2*(q - m*2^e) < 2^e) : flPos q = m * 2^e := by
  have hm : flM q = m := by rw [flM, h1, h2]
  rw [flPos, h1, hm, if_pos h3]

theorem flPos_eval_hi (q : ℚ) (e m : ℤ) (h1 : flE q = e) (h2 : ⌊q / 2^e⌋ = m)
    (h3 : (2:ℚ)^e < 2*(q - m*2^e)) : flPos q = (m + 1) * 2^e := by
  have hm : flM q = m := by rw [flM, h1, h2]
  rw [flPos, h1, hm, if_neg (by exact not_lt.mpr (le_of_lt h3)), if_pos h3]

theorem fl_eval_pos (q : ℚ) (h0 : 0 < q) : fl q = flPos q := by
  rw [fl, if_neg (by exact ne_of_gt h0), if_neg (by exact not_lt.mpr (le_of_lt h0))]

theorem fl_eval_neg (q : ℚ) (h0 : q < 0) : fl q = -flPos (-q) := by
  rw [fl, if_neg (by exact ne_of_lt h0), if_pos h0]

theorem fl_zero : fl 0 = 0 := by rw [fl, if_pos rfl]

theorem natLog2Aux_spec (fuel : ℕ) : ∀ n : ℕ, 1 ≤ n → n < 2^fuel →
    2^(natLog2Aux fuel n) ≤ n ∧ n < 2^(natLog2Aux fuel n + 1) := by
  induction fuel with
  | zero =>
    intro n h1 h2
    simp only [pow_zero] at h2
    omega
  | succ f ih =>
    intro n h1 h2
    rw [natLog2Aux]
    by_cases hn : n ≤ 1
    · rw [if_pos hn]
      constructor
      · simpa using h1
      · simpa using by omega
    · rw [if_neg hn]
      have hps : (2:ℕ)^(f+1) = 2^f * 2 := pow_succ 2 f
      have h2' : n / 2 < 2^f := by omega
      have h1' : 1 ≤ n / 2 := by omega
      obtain ⟨ihl, ihr⟩ := ih (n / 2) h1' h2'
      have hL1 : (2:ℕ)^(natLog2Aux f (n/2) + 1) = 2^(natLog2Aux f (n/2)) * 2 :=
        pow_succ 2 _
      have hL2 : (2:ℕ)^(natLog2Aux f (n/2) + 1 + 1) = 2^(natLog2Aux f (n/2) + 1) * 2 :=
        pow_succ 2 _
      omega

theorem natLog2_spec (n : ℕ) (h1 : 1 ≤ n) (h2 : n < 2^1000) :
    2^(natLog2 n) ≤ n ∧ n < 2^(natLog2 n + 1) := natLog2Aux_spec 1000 n h1 h2

theorem ratLog2_spec_aux (q : ℚ) (la lb : ℕ)
    (heq : (natLog2 q.num.natAbs : ℤ) - (natLog2 q.den : ℤ) = (la:ℤ) - lb)
    (h1 : (2:ℚ)^((la:ℤ) - lb - 1) < q) (h2 : q < 2^((la:ℤ) - lb + 1)) :
    (2:ℚ)^(ratLog2 q) ≤ q ∧ q < (2:ℚ)^(ratLog2 q + 1) := by
  unfold ratLog2
  rw [heq]
  by_cases hc : (2:ℚ)^((la:ℤ) - lb) ≤ q
  · rw [if_pos hc]
    exact ⟨hc, h2⟩
  · rw [if_neg hc]
    refine ⟨le_of_lt h1, ?_⟩
    have hq2 := not_le.mp hc
    calc q < (2:ℚ)^((la:ℤ) - lb) := hq2
      _ = (2:ℚ)^((la:ℤ) - lb - 1 + 1) := by congr 1; ring
  
theorem ratLog2_spec (q : ℚ) (hq : 0 < q) (hn : q.num.natAbs < 2^1000)
    (hd : q.den < 2^1000) :
    (2:ℚ)^(ratLog2 q) ≤ q ∧ q < (2:ℚ)^(ratLog2 q + 1) := by
  have hnum_pos : 0 < q.num := Rat.num_pos.mpr hq
  have hA1 : 1 ≤ q.num.natAbs := by
    have := Int.natAbs_pos.mpr (ne_of_gt hnum_pos)
    omega
  have hB1 : 1 ≤ q.den := q.den_pos
  obtain ⟨hAl, hAu⟩ := natLog2_spec q.num.natAbs hA1 hn
  obtain ⟨hBl, hBu⟩ := natLog2_spec q.den hB1 hd
  have hq_eq : q = (q.num.natAbs : ℚ) / (q.den : ℚ) := by
    have h0q : ((q.num.natAbs : ℚ)) = ((q.num : ℚ)) := by
      rw [Int.cast_natAbs]
      exact_mod_cast abs_of_nonneg hnum_pos.le
    rw [h0q]
    exact (Rat.num_div_den q).symm
  have hApos : (0:ℚ) < (q.num.natAbs : ℚ) := by exact_mod_cast hA1
  have hBpos : (0:ℚ) < (q.den : ℚ) := by exact_mod_cast hB1
  have cAl : (2:ℚ)^(natLog2 q.num.natAbs : ℕ) ≤ (q.num.natAbs : ℚ) := by exact_mod_cast hAl
  have cAu : (q.num.natAbs : ℚ) < (2:ℚ)^(natLog2 q.num.natAbs + 1 : ℕ) := by exact_mod_cast hAu
  have cBl : (2:ℚ)^(natLog2 q.den : ℕ) ≤ (q.den : ℚ) := by exact_mod_cast hBl
  have cBu : (q.den : ℚ) < (2:ℚ)^(natLog2 q.den + 1 : ℕ) := by exact_mod_cast hBu
  refine ratLog2_spec_aux q (natLog2 q.num.natAbs) (natLog2 q.den) rfl ?_ ?_
  · have e1 : (2:ℚ)^((natLog2 q.num.natAbs : ℤ) - (natLog2 q.den) - 1) =
        (2:ℚ)^(natLog2 q.num.natAbs : ℕ) / (2:ℚ)^(natLog2 q.den + 1 : ℕ) := by
      rw [eq_div_iff (by positivity), ← zpow_natCast (2:ℚ) (natLog2 q.num.natAbs),
        ← zpow_natCast (2:ℚ) (natLog2 q.den + 1), ← zpow_add₀ (two_ne_zero)]
      congr 1
      push_cast
      ring
    rw [e1]
    conv_rhs => rw [hq_eq]
    calc (2:ℚ)^(natLog2 q.num.natAbs : ℕ) / (2:ℚ)^(natLog2 q.den + 1 : ℕ) ≤
        (q.num.natAbs : ℚ) / (2:ℚ)^(natLog2 q.den + 1 : ℕ) := by gcongr
      _ < (q.num.natAbs : ℚ) / (q.den : ℚ) := by
          exact div_lt_div_of_pos_left hApos hBpos cBu
  · have e2 : (2:ℚ)^((natLog2 q.num.natAbs : ℤ) - (natLog2 q.den) + 1) =
        (2:ℚ)^(natLog2 q.num.natAbs + 1 : ℕ) / (2:ℚ)^(natLog2 q.den : ℕ) := by
      rw [eq_div_iff (by positivity), ← zpow_natCast (2:ℚ) (natLog2 q.num.natAbs + 1),
        ← zpow_natCast (2:ℚ) (natLog2 q.den), ← zpow_add₀ (two_ne_zero)]
      congr 1
      push_cast
      ring
    rw [e2]
    conv_lhs => rw [hq_eq]
    calc (q.num.natAbs : ℚ) / (q.den : ℚ) ≤
        (q.num.natAbs : ℚ) / (2:ℚ)^(natLog2 q.den : ℕ) := by gcongr
      _ < (2:ℚ)^(natLog2 q.num.natAbs + 1 : ℕ) / (2:ℚ)^(natLog2 q.den : ℕ) := by gcongr

theorem flM_bounds (q : ℚ) :
    (flM q : ℚ) * 2^(flE q) ≤ q ∧ q < ((flM q : ℚ) + 1) * 2^(flE q) := by
  have hp : (0:ℚ) < 2^(flE q) := zpow_pos (by norm_num) _
  constructor
  · have hfl : ((flM q : ℚ)) ≤ q / 2^(flE q) := by
      unfold flM
      exact Int.floor_le _
    calc (flM q : ℚ) * 2^(flE q) ≤ (q / 2^(flE q)) * 2^(flE q) :=
        mul_le_mul_of_nonneg_right hfl hp.le
      _ = q := div_mul_cancel₀ q (ne_of_gt hp)
  · have hfl : q / 2^(flE q) < (flM q : ℚ) + 1 := by
      unfold flM
      exact Int.lt_floor_add_one _
    have h2 : q / 2^(flE q) * 2^(flE q) < ((flM q : ℚ) + 1) * 2^(flE q) :=
      mul_lt_mul_of_pos_right hfl hp
    rwa [div_mul_cancel₀ q (ne_of_gt hp)] at h2

theorem flPos_cases (q : ℚ) :
    flPos q = (flM q : ℚ) * 2^(flE q) ∨ flPos q = ((flM q : ℚ) + 1) * 2^(flE q) := by
  unfold flPos
  split_ifs <;> simp [add_mul]

theorem flPos_err (q : ℚ) : |flPos q - q| ≤ (2:ℚ)^(flE q - 1) := by
  obtain ⟨h1, h2⟩ := flM_bounds q
  have hp : (0:ℚ) < 2^(flE q) := zpow_pos (by norm_num) _
  have hhalf : (2:ℚ)^(flE q - 1) = 2^(flE q) / 2 := by
    rw [zpow_sub₀ two_ne_zero, zpow_one]
  unfold flPos
  split_ifs with ha hb hc
  · rw [abs_sub_comm, abs_of_nonneg (by linarith)]
    linarith
  · rw [abs_of_nonneg (by push_cast; push_cast at h2; linarith)]
    push_cast
    push_cast at h2
    linarith [not_lt.mp ha]
  · rw [abs_sub_comm, abs_of_nonneg (by linarith)]
    linarith [not_lt.mp hb]
  · rw [abs_of_nonneg (by push_cast; push_cast at h2; linarith)]
    push_cast
    push_cast at h2
    linarith [not_lt.mp ha]

theorem flPos_err_rel (q : ℚ) (hq : 0 < q) (hn : q.num.natAbs < 2^1000)
    (hd : q.den < 2^1000) : |flPos q - q| ≤ q * (2:ℚ)^(-53 : ℤ) := by
  have h := flPos_err q
  have hr := (ratLog2_spec q hq hn hd).1
  have hsplit : (2:ℚ)^(flE q - 1) = (2:ℚ)^(ratLog2 q) * (2:ℚ)^(-53:ℤ) := by
    rw [← zpow_add₀ two_ne_zero]
    congr 1
    unfold flE
    ring
  rw [hsplit] at h
  calc |flPos q - q| ≤ (2:ℚ)^(ratLog2 q) * (2:ℚ)^(-53:ℤ) := h
    _ ≤ q * (2:ℚ)^(-53:ℤ) :=
        mul_le_mul_of_nonneg_right hr (zpow_pos (by norm_num) _).le

theorem epsilon_eq : (2:ℚ)^(-53:ℤ) = 1/9007199254740992 := by
  rw [show ((-53 : ℤ)) = -((53:ℕ):ℤ) by norm_num, zpow_neg, zpow_natCast]
  norm_num

theorem flPos_pos (q : ℚ) (hq : 0 < q) (hn : q.num.natAbs < 2^1000)
    (hd : q.den < 2^1000) : 0 < flPos q := by
  have h := flPos_err_rel q hq hn hd
  rw [epsilon_eq] at h
  have habs := abs_le.mp h
  have h1 := habs.1
  linarith

theorem flM_lt_two53 (q : ℚ) (hq : 0 < q) (hn : q.num.natAbs < 2^1000)
    (hd : q.den < 2^1000) : flM q < 2^53 := by
  have hp : (0:ℚ) < 2^(flE q) := zpow_pos (by norm_num) _
  have hub := (ratLog2_spec q hq hn hd).2
  unfold flM
  rw [Int.floor_lt]
  rw [div_lt_iff hp]
  calc q < (2:ℚ)^(ratLog2 q + 1) := hub
    _ = ((2^53 : ℤ) : ℚ) * 2^(flE q) := by
      rw [show (((2:ℤ)^53 : ℤ) : ℚ) = (2:ℚ)^((53:ℕ)) by push_cast; ring,
        ← zpow_natCast (2:ℚ) 53, ← zpow_add₀ two_ne_zero]
      congr 1
      unfold flE
      push_cast
      ring

theorem two52_le_flM (q : ℚ) (hq : 0 < q) (hn : q.num.natAbs < 2^1000)
    (hd : q.den < 2^1000) : 2^52 ≤ flM q := by
  have hp : (0:ℚ) < 2^(flE q) := zpow_pos (by norm_num) _
  have hlb := (ratLog2_spec q hq hn hd).1
  have hkey : (((2:ℤ)^52 : ℤ) : ℚ) * 2^(flE q) = (2:ℚ)^(ratLog2 q) := by
    have hc : (((2:ℤ)^52 : ℤ) : ℚ) = (2:ℚ)^(((52:ℕ)):ℤ) := by
      rw [zpow_natCast]
      push_cast
      ring
    rw [hc, ← zpow_add₀ two_ne_zero]
    congr 1
    unfold flE
    push_cast
    ring
  unfold flM
  rw [Int.le_floor, le_div_iff₀ hp, hkey]
  exact hlb

theorem flPos_dyadic (q : ℚ) (hq : 0 < q) (hn : q.num.natAbs < 2^1000)
    (hd : q.den < 2^1000) :
    ∃ M : ℤ, 0 < M ∧ M ≤ 2^53 ∧ flPos q = (M:ℚ) * 2^(flE q) := by
  have h1 := two52_le_flM q hq hn hd
  have h2 := flM_lt_two53 q hq hn hd
  have hpos52 : (0:ℤ) < 2^52 := by positivity
  rcases flPos_cases q with h | h
  · exact ⟨flM q, by omega, by omega, h⟩
  · refine ⟨flM q + 1, by omega, by omega, ?_⟩
    rw [h]
    push_cast
    ring

theorem flPos_int (n : ℤ) (h0 : 0 < n) (h1 : n < 2^53) : flPos (n:ℚ) = (n:ℚ) := by
  have hq : (0:ℚ) < (n:ℚ) := by exact_mod_cast h0
  have hn : ((n:ℚ)).num.natAbs < 2^1000 := by
    rw [Rat.num_intCast]
    have hl : n.natAbs < 2^53 := by
      have := Int.natAbs_of_nonneg h0.le
      omega
    calc n.natAbs < 2^53 := hl
      _ < 2^1000 := Nat.pow_lt_pow_right (by norm_num) (by norm_num)
  have hd : ((n:ℚ)).den < 2^1000 := by
    rw [Rat.den_intCast]
    norm_num
  have hspec := ratLog2_spec (n:ℚ) hq hn hd
  have hr52 : ratLog2 (n:ℚ) ≤ 52 := by
    by_contra hcon
    push_neg at hcon
    have hz : (2:ℚ)^(53:ℤ) ≤ (2:ℚ)^(ratLog2 (n:ℚ)) :=
      zpow_le_zpow_right₀ one_le_two (by omega)
    have hlt : (n:ℚ) < (2:ℚ)^(53:ℤ) := by
      rw [show ((53:ℤ)) = ((53:ℕ):ℤ) by norm_num, zpow_natCast]
      exact_mod_cast h1
    linarith [hspec.1]
  obtain ⟨t, ht⟩ : ∃ t : ℕ, flE (n:ℚ) = -(t:ℤ) := by
    refine ⟨(-(flE (n:ℚ))).toNat, ?_⟩
    unfold flE
    omega
  have hpow : (2:ℚ)^(flE (n:ℚ)) = ((2:ℚ)^t)⁻¹ := by
    rw [ht, zpow_neg, zpow_natCast]
  have hdiv : (n:ℚ) / (2:ℚ)^(flE (n:ℚ)) = ((n * 2^t : ℤ) : ℚ) := by
    rw [hpow, div_eq_mul_inv, inv_inv]
    push_cast
    ring
  have hM : flM (n:ℚ) = n * 2^t := by
    unfold flM
    rw [hdiv, Int.floor_intCast]
  have hr0 : (n:ℚ) - (flM (n:ℚ) : ℚ) * 2^(flE (n:ℚ)) = 0 := by
    rw [hM, hpow]
    push_cast
    field_simp
  unfold flPos
  rw [if_pos (by rw [hr0]; simpa using zpow_pos (show (0:ℚ) < 2 by norm_num) (flE (n:ℚ)))]
  rw [hM, hpow]
  push_cast
  field_simp

theorem num_den_div_le (x : ℤ) (y : ℕ) (hy : y ≠ 0) :
    ((x:ℚ)/(y:ℚ)).num.natAbs ≤ x.natAbs ∧ ((x:ℚ)/(y:ℚ)).den ≤ y := by
  have hyz : ((y:ℤ)) ≠ 0 := by exact_mod_cast hy
  have hdiv : (x:ℚ)/(y:ℚ) = Rat.divInt x (y:ℤ) := by
    rw [Rat.divInt_eq_div]
    norm_num
  constructor
  · by_cases hx : x = 0
    · subst hx
      simp
    · have hdvd : (Rat.divInt x (y:ℤ)).num ∣ x := Rat.num_dvd x hyz
      rw [hdiv]
      exact Nat.le_of_dvd (Int.natAbs_pos.mpr hx) (Int.natAbs_dvd_natAbs.mpr hdvd)
  · have hdvd : (((Rat.divInt x (y:ℤ)).den : ℤ)) ∣ (y:ℤ) := Rat.den_dvd x (y:ℤ)
    rw [hdiv]
    have hnat : (Rat.divInt x (y:ℤ)).den ∣ y := by exact_mod_cast hdvd
    exact Nat.le_of_dvd (Nat.pos_of_ne_zero hy) hnat

theorem pow2_900_mul_1e6_lt (x : ℕ) (hx : x < 2^900) : x * 1000000 < 2^1000 := by
  have h1 : x * 1000000 < 2^900 * 2^20 :=
    mul_lt_mul'' hx (by norm_num) (Nat.zero_le _) (Nat.zero_le _)
  have h2 : (2:ℕ)^900 * 2^20 = 2^920 := by rw [← pow_add]
  have h3 : (2:ℕ)^920 ≤ 2^1000 := Nat.pow_le_pow_right (by norm_num) (by norm_num)
  omega

theorem pow2_900_lt_1000 : (2:ℕ)^900 < 2^1000 :=
  Nat.pow_lt_pow_right (by norm_num) (by norm_num)

/-- C1 counterexample: the six-fractional-digit decimal 0.000249 does not
survive the round trip.  Its binary64 value is `4593239274353678 * 2^(-64)`;
the binary64 product with `10^6` is `8760908650119167 * 2^(-45)` which is
just below 249, so `parseUsdc` truncates to 248, and `formatUsdc 248`
returns the binary64 value of 0.000248, a different number. -/
theorem usdc_roundtrip_counterexample :
    formatUsdc (parseUsdc (fl ((249:ℚ)/1000000))) ≠ fl ((249:ℚ)/1000000) := by
  have s1 : fl ((249:ℚ)/1000000) = 4593239274353678 * (2:ℚ)^(-64:ℤ) := by
    rw [fl_eval_pos _ (by norm_num),
      flPos_eval_lo _ (-64) 4593239274353678 (by with_unfolding_all decide)
        (by with_unfolding_all decide) (by with_unfolding_all decide)]
    norm_num
  have s2 : fl ((4593239274353678 * (2:ℚ)^(-64:ℤ)) * 1000000) =
      8760908650119167 * (2:ℚ)^(-45:ℤ) := by
    rw [fl_eval_pos _ (by with_unfolding_all decide),
      flPos_eval_lo _ (-45) 8760908650119167 (by with_unfolding_all decide)
        (by with_unfolding_all decide) (by with_unfolding_all decide)]
    norm_num
  have s3 : parseUsdc (fl ((249:ℚ)/1000000)) = 248 := by
    unfold parseUsdc
    rw [s1, s2]
    with_unfolding_all decide
  have s4 : formatUsdc 248 = 4574792530279969 * (2:ℚ)^(-64:ℤ) := by
    unfold formatUsdc
    have hf248 : fl (((248:ℤ)):ℚ) = (((248:ℤ)):ℚ) := by
      rw [fl_eval_pos _ (by norm_num)]
      exact flPos_int 248 (by norm_num) (by norm_num)
    rw [hf248, show ((((248:ℤ))):ℚ) = (248:ℚ) by norm_num,
      fl_eval_pos _ (by norm_num),
      flPos_eval_hi _ (-64) 4574792530279968 (by with_unfolding_all decide)
        (by with_unfolding_all decide) (by with_unfolding_all decide)]
    norm_num
  rw [s3, s4, s1]
  with_unfolding_all decide

/-- C8 counterexample: for the double `a = 5224175567749775 * 2^(-54)` (the
binary64 value of the decimal input 0.29), `toAtomic` returns 290000
although the exact product `a * 10^6` truncates to 289999: the binary64
multiplication rounds up across the integer boundary, so `parseUsdc` is not
the truncation of `a * 10^6` and does round up. -/
theorem codec_truncation_counterexample :
    fl ((29:ℚ)/100) = 5224175567749775 * (2:ℚ)^(-54:ℤ) ∧
    parseUsdc (5224175567749775 * (2:ℚ)^(-54:ℤ)) = 290000 ∧
    ⌊(5224175567749775 * (2:ℚ)^(-54:ℤ)) * 1000000⌋ = 289999 := by
  refine ⟨?_, ?_, ?_⟩
  · rw [fl_eval_pos _ (by norm_num),
      flPos_eval_lo _ (-54) 5224175567749775 (by with_unfolding_all decide)
        (by with_unfolding_all decide) (by with_unfolding_all decide)]
    norm_num
  · have s1 : fl ((5224175567749775 * (2:ℚ)^(-54:ℤ)) * 1000000) =
        4982162063360000 * (2:ℚ)^(-34:ℤ) := by
      rw [fl_eval_pos _ (by with_unfolding_all decide),
        flPos_eval_hi _ (-34) 4982162063359999 (by with_unfolding_all decide)
          (by with_unfolding_all decide) (by with_unfolding_all decide)]
      norm_num
    unfold parseUsdc
    rw [s1]
    with_unfolding_all decide
  · with_unfolding_all decide

/-- C6 amended: `parseUsdc` neither fails nor clamps on a negative amount —
it returns the corresponding negative atomic integer, and `createLoanOffer`
on a connected session passes that negative value straight into the payload
and on to transaction submission; no client-side rejection happens. -/
theorem negative_amount_not_rejected (a : ℚ) (st : WalletState) (o : Oracles)
    (interestRate duration collateralRatio : ℚ) (acct : Account)
    (ha : a < 0) (han : a.num.natAbs < 2^900) (had : a.den < 2^900)
    (hst : st.isConnected = true) (hacc : st.account = some acct) :
    parseUsdc a < 0 ∧
    createLoanOffer st o a interestRate duration collateralRatio =
      Except.ok (submitTransaction acct
        (createEntryFunctionPayload "create_offer" [USDC_COIN]
          [FnArg.str (toString (parseUsdc a)), FnArg.num interestRate,
           FnArg.num duration, FnArg.num collateralRatio]) o) := by
  constructor
  · have hp_neg : a * 1000000 < 0 :=
      mul_neg_of_neg_of_pos ha (by norm_num)
    have hfl : fl (a * 1000000) = -flPos (-(a * 1000000)) := fl_eval_neg _ hp_neg
    have hform : -(a * 1000000) = ((-(a.num * 1000000) : ℤ) : ℚ) / ((a.den : ℕ) : ℚ) := by
      conv_lhs => rw [← Rat.num_div_den a]
      push_cast
      ring
    have hnd := num_den_div_le (-(a.num * 1000000)) a.den a.den_nz
    rw [← hform] at hnd
    have hnum_b : ((-(a.num * 1000000) : ℤ)).natAbs < 2^1000 := by
      rw [Int.natAbs_neg, Int.natAbs_mul]
      have := pow2_900_mul_1e6_lt a.num.natAbs han
      simpa using this
    have hden_b : a.den < 2^1000 := lt_trans had pow2_900_lt_1000
    have hposflp := flPos_pos (-(a * 1000000)) (by linarith)
      (lt_of_le_of_lt hnd.1 hnum_b) (lt_of_le_of_lt hnd.2 hden_b)
    unfold parseUsdc
    rw [hfl, Int.floor_lt]
    push_cast
    linarith
  · have he : ensureConnected st = .ok acct := by
      unfold ensureConnected
      rw [hst, hacc]
    simp [createLoanOffer, he]

theorem negative_amount_not_rejected_witness :
    parseUsdc (-1) < 0 ∧
    createLoanOffer stConnected okOracles (-1) 5 30 150 =
      Except.ok (submitTransaction { address := "0xlender2" }
        (createEntryFunctionPayload "create_offer" [USDC_COIN]
          [FnArg.str (toString (parseUsdc (-1))), FnArg.num 5, FnArg.num 30,
           FnArg.num 150]) okOracles) :=
  negative_amount_not_rejected (-1) stConnected okOracles 5 30 150
    { address := "0xlender2" } (by norm_num)
    (by with_unfolding_all decide) (by with_unfolding_all decide) rfl rfl

/-- C8 amended: the codec is the spec's contract only up to one binary64
rounding: `toAtomic a` is within `1 + (a * 10^6) * 2^(-53)` of the exact
product `a * 10^6` (it can exceed the exact truncation by one when the
product rounds up across an integer, as the counterexample shows), and
`fromAtomic u` is the binary64 value nearest `u / 10^6`, within relative
error `2^(-53)` of it. -/
theorem codec_error_bounds (a : ℚ) (u : ℤ)
    (ha : 0 < a) (han : a.num.natAbs < 2^900) (had : a.den < 2^900)
    (hu0 : 0 < u) (hu1 : u < 2^53) :
    |((parseUsdc a : ℤ) : ℚ) - a * 1000000| < 1 + (a * 1000000) * (2:ℚ)^(-53:ℤ) ∧
    |formatUsdc u - (u:ℚ)/1000000| ≤ ((u:ℚ)/1000000) * (2:ℚ)^(-53:ℤ) := by
  constructor
  · have hppos : (0:ℚ) < a * 1000000 := by positivity
    have hform : a * 1000000 = ((a.num * 1000000 : ℤ) : ℚ) / ((a.den : ℕ) : ℚ) := by
      conv_lhs => rw [← Rat.num_div_den a]
      push_cast
      ring
    have hnd := num_den_div_le (a.num * 1000000) a.den a.den_nz
    rw [← hform] at hnd
    have hnum_b : ((a.num * 1000000 : ℤ)).natAbs < 2^1000 := by
      rw [Int.natAbs_mul]
      have := pow2_900_mul_1e6_lt a.num.natAbs han
      simpa using this
    have hden_b : a.den < 2^1000 := lt_trans had pow2_900_lt_1000
    have herr := flPos_err_rel (a * 1000000) hppos
      (lt_of_le_of_lt hnd.1 hnum_b) (lt_of_le_of_lt hnd.2 hden_b)
    have hfl : fl (a * 1000000) = flPos (a * 1000000) := fl_eval_pos _ hppos
    unfold parseUsdc
    rw [hfl]
    have h1 : ((⌊flPos (a * 1000000)⌋ : ℤ) : ℚ) ≤ flPos (a * 1000000) :=
      Int.floor_le _
    have h2 : flPos (a * 1000000) - 1 < ((⌊flPos (a * 1000000)⌋ : ℤ) : ℚ) :=
      Int.sub_one_lt_floor _
    have habs := abs_le.mp herr
    have hpe : (0:ℚ) ≤ (a * 1000000) * (2:ℚ)^(-53:ℤ) := by positivity
    refine abs_lt.mpr ⟨?_, ?_⟩ <;> linarith [habs.1, habs.2]
  · have hq : (0:ℚ) < (u:ℚ)/1000000 := by
      have : (0:ℚ) < (u:ℚ) := by exact_mod_cast hu0
      positivity
    have hflu : fl ((u:ℚ)) = (u:ℚ) := by
      rw [fl_eval_pos _ (by exact_mod_cast hu0)]
      exact flPos_int u hu0 hu1
    unfold formatUsdc
    rw [hflu]
    have hform : (u:ℚ)/1000000 = ((u : ℤ):ℚ)/((1000000:ℕ):ℚ) := by push_cast; ring
    have hnd := num_den_div_le u 1000000 (by norm_num)
    rw [← hform] at hnd
    have hu_b : u.natAbs < 2^1000 := by
      have h53 : u.natAbs < 2^53 := by omega
      have hp : (2:ℕ)^53 < 2^1000 := Nat.pow_lt_pow_right (by norm_num) (by norm_num)
      omega
    have h1e6_b : (1000000:ℕ) < 2^1000 := by
      have h20 : (1000000:ℕ) < 2^20 := by norm_num
      have hp : (2:ℕ)^20 ≤ 2^1000 := Nat.pow_le_pow_right (by norm_num) (by norm_num)
      omega
    have herr := flPos_err_rel ((u:ℚ)/1000000) hq
      (lt_of_le_of_lt hnd.1 hu_b) (lt_of_le_of_lt hnd.2 h1e6_b)
    rw [fl_eval_pos _ hq]
    exact herr

theorem codec_error_bounds_witness :
    |((parseUsdc (1/2) : ℤ) : ℚ) - (1/2) * 1000000| <
      1 + ((1/2) * 1000000) * (2:ℚ)^(-53:ℤ) ∧
    |formatUsdc 249 - ((249:ℤ):ℚ)/1000000| ≤ (((249:ℤ):ℚ)/1000000) * (2:ℚ)^(-53:ℤ) :=
  codec_error_bounds (1/2) 249 (by norm_num) (by with_unfolding_all decide)
    (by with_unfolding_all decide) (by norm_num) (by norm_num)

/-- C1 amended: for every non-negative decimal amount `k * 10^(-6)` with at
most six fractional digits (up to 10^9 USDC), the round trip
`fromAtomic (toAtomic a)` on its binary64 value `a` returns either `a`
itself or the binary64 value one atomic unit lower, `(k-1) * 10^(-6)`; the
spec's example 123.456789 round-trips exactly, but exact equality fails in
general (counterexample: 0.000249). -/
theorem usdc_roundtrip_within_one_unit (k : ℕ) (h0 : 0 < k)
    (h1 : k ≤ 1000000000000000) :
    formatUsdc (parseUsdc (fl ((k:ℚ)/1000000))) = fl ((k:ℚ)/1000000) ∨
    formatUsdc (parseUsdc (fl ((k:ℚ)/1000000))) = fl (((k:ℚ)-1)/1000000) := by
  have hk_pos : (0:ℚ) < (k:ℚ) := by exact_mod_cast h0
  have hk_ub : (k:ℚ) ≤ 1000000000000000 := by exact_mod_cast h1
  have hk1 : (1:ℚ) ≤ (k:ℚ) := by exact_mod_cast h0
  have hq0pos : (0:ℚ) < (k:ℚ)/1000000 := by positivity
  have hcast : ((k:ℤ):ℚ)/((1000000:ℕ):ℚ) = (k:ℚ)/1000000 := by push_cast; ring
  have hq0nd := num_den_div_le (k:ℤ) 1000000 (by norm_num)
  rw [hcast] at hq0nd
  have hkabs : ((k:ℤ)).natAbs = k := Int.natAbs_ofNat k
  have hq0n : ((k:ℚ)/1000000).num.natAbs < 2^1000 := by
    have h2 := hq0nd.1
    rw [hkabs] at h2
    have hp : (2:ℕ)^53 < 2^1000 := Nat.pow_lt_pow_right (by norm_num) (by norm_num)
    have hk53 : k < 2^53 := lt_of_le_of_lt h1 (by norm_num)
    omega
  have hq0d : ((k:ℚ)/1000000).den < 2^1000 := by
    have h2 := hq0nd.2
    have hp : (2:ℕ)^20 ≤ 2^1000 := Nat.pow_le_pow_right (by norm_num) (by norm_num)
    have h3 : (1000000:ℕ) < 2^20 := by norm_num
    omega
  have hfla : fl ((k:ℚ)/1000000) = flPos ((k:ℚ)/1000000) := fl_eval_pos _ hq0pos
  have herr_a := flPos_err_rel _ hq0pos hq0n hq0d
  rw [epsilon_eq] at herr_a
  have hbnd_a := abs_le.mp herr_a
  have hapos : (0:ℚ) < flPos ((k:ℚ)/1000000) := flPos_pos _ hq0pos hq0n hq0d
  have hspec0 := ratLog2_spec _ hq0pos hq0n hq0d
  have hr0_lb : -20 ≤ ratLog2 ((k:ℚ)/1000000) := by
    by_contra hcon
    push_neg at hcon
    have hmono : (2:ℚ)^(ratLog2 ((k:ℚ)/1000000) + 1) ≤ (2:ℚ)^(-20:ℤ) :=
      zpow_le_zpow_right₀ one_le_two (by omega)
    have h5 : (2:ℚ)^(-20:ℤ) = 1/1048576 := by
      rw [show ((-20:ℤ)) = -((20:ℕ):ℤ) by norm_num, zpow_neg, zpow_natCast]
      norm_num
    have h4 : (1:ℚ)/1000000 ≤ (k:ℚ)/1000000 := by gcongr
    have h6 := hspec0.2
    rw [h5] at hmono
    linarith
  have hr0_ub : ratLog2 ((k:ℚ)/1000000) ≤ 49 := by
    by_contra hcon
    push_neg at hcon
    have hmono : (2:ℚ)^(50:ℤ) ≤ (2:ℚ)^(ratLog2 ((k:ℚ)/1000000)) :=
      zpow_le_zpow_right₀ one_le_two (by omega)
    have h50 : (2:ℚ)^(50:ℤ) = 1125899906842624 := by
      rw [show ((50:ℤ)) = ((50:ℕ):ℤ) by norm_num, zpow_natCast]
      norm_num
    have hq0ub : (k:ℚ)/1000000 ≤ 1000000000 := by
      rw [div_le_iff₀ (by norm_num)]
      linarith
    have h7 := hspec0.1
    rw [h50] at hmono
    linarith
  obtain ⟨M, hM0, hM53, hMa⟩ := flPos_dyadic _ hq0pos hq0n hq0d
  obtain ⟨t, ht, ht72⟩ : ∃ t : ℕ, flE ((k:ℚ)/1000000) = -(t:ℤ) ∧ t ≤ 72 := by
    refine ⟨(-(flE ((k:ℚ)/1000000))).toNat, ?_, ?_⟩ <;>
      · unfold flE
        omega
  have hp_pos : (0:ℚ) < flPos ((k:ℚ)/1000000) * 1000000 :=
    mul_pos hapos (by norm_num)
  have hpform : flPos ((k:ℚ)/1000000) * 1000000 =
      ((M * 1000000 : ℤ) : ℚ) / ((2^t : ℕ) : ℚ) := by
    rw [hMa, ht, zpow_neg, zpow_natCast]
    push_cast
    ring
  have hpnd := num_den_div_le (M * 1000000) (2^t) (by positivity)
  rw [← hpform] at hpnd
  have hpn : (flPos ((k:ℚ)/1000000) * 1000000).num.natAbs < 2^1000 := by
    have hb := hpnd.1
    have hM' : M.natAbs ≤ 2^53 := by
      have h3 := Int.natAbs_of_nonneg hM0.le
      omega
    have hMabs : ((M * 1000000 : ℤ)).natAbs ≤ 2^53 * 1000000 := by
      rw [Int.natAbs_mul]
      have h4 : ((1000000:ℤ)).natAbs = 1000000 := rfl
      calc M.natAbs * (1000000:ℤ).natAbs = M.natAbs * 1000000 := by rw [h4]
        _ ≤ 2^53 * 1000000 := Nat.mul_le_mul_right _ hM'
    have hlit : (2:ℕ)^53 * 1000000 < 2^1000 := by
      have h73a : (2:ℕ)^53 * 1000000 < 2^53 * 2^20 :=
        mul_lt_mul_of_pos_left (by norm_num) (by positivity)
      have h73b : (2:ℕ)^53 * 2^20 = 2^73 := by rw [← pow_add]
      have h73c : (2:ℕ)^73 ≤ 2^1000 := Nat.pow_le_pow_right (by norm_num) (by norm_num)
      omega
    omega
  have hpd : (flPos ((k:ℚ)/1000000) * 1000000).den < 2^1000 := by
    have hb := hpnd.2
    have h72 : (2:ℕ)^t ≤ 2^72 := Nat.pow_le_pow_right (by norm_num) ht72
    have h2b : (2:ℕ)^72 < 2^1000 := Nat.pow_lt_pow_right (by norm_num) (by norm_num)
    omega
  have herr_p := flPos_err_rel _ hp_pos hpn hpd
  rw [epsilon_eq] at herr_p
  have hbnd_p := abs_le.mp herr_p
  have hfp_lb : (k:ℚ) - 1 < flPos (flPos ((k:ℚ)/1000000) * 1000000) := by
    have ha1 := hbnd_a.1
    have hp1 := hbnd_p.1
    linarith
  have hfp_ub : flPos (flPos ((k:ℚ)/1000000) * 1000000) < (k:ℚ) + 1 := by
    have ha2 := hbnd_a.2
    have hp2 := hbnd_p.2
    linarith
  have hfloor_ub : ⌊flPos (flPos ((k:ℚ)/1000000) * 1000000)⌋ ≤ (k:ℤ) := by
    have hlt : flPos (flPos ((k:ℚ)/1000000) * 1000000) < (((k:ℤ) + 1 : ℤ) : ℚ) := by
      push_cast
      linarith
    have h8 := Int.floor_lt.mpr hlt
    omega
  have hfloor_lb : (k:ℤ) - 1 ≤ ⌊flPos (flPos ((k:ℚ)/1000000) * 1000000)⌋ := by
    apply Int.le_floor.mpr
    push_cast
    linarith
  have hparse : parseUsdc (fl ((k:ℚ)/1000000)) =
      ⌊flPos (flPos ((k:ℚ)/1000000) * 1000000)⌋ := by
    unfold parseUsdc
    rw [hfla, fl_eval_pos _ hp_pos]
  have hk53' : ((k:ℕ):ℤ) < 2^53 := by
    have h9 : k < 2^53 := lt_of_le_of_lt h1 (by norm_num)
    exact_mod_cast h9
  have hncase : ⌊flPos (flPos ((k:ℚ)/1000000) * 1000000)⌋ = (k:ℤ) ∨
      ⌊flPos (flPos ((k:ℚ)/1000000) * 1000000)⌋ = (k:ℤ) - 1 := by omega
  rcases hncase with hn | hn
  · left
    rw [hparse, hn]
    unfold formatUsdc
    have hflk : fl (((k:ℤ)):ℚ) = ((((k:ℤ))):ℚ) := by
      rw [fl_eval_pos _ (by exact_mod_cast hk_pos)]
      exact flPos_int (k:ℤ) (by exact_mod_cast h0) hk53'
    rw [hflk, show ((((k:ℕ):ℤ)):ℚ) = ((k:ℕ):ℚ) by push_cast; ring]
  · right
    rw [hparse, hn]
    unfold formatUsdc
    by_cases hk_eq1 : k = 1
    · subst hk_eq1
      norm_num [fl_zero]
    · have hk2 : 2 ≤ k := by omega
      have hu_pos : (0:ℤ) < (k:ℤ) - 1 := by omega
      have hu53 : (k:ℤ) - 1 < 2^53 := by
        have h9 := hk53'
        omega
      have hflu : fl ((((k:ℤ) - 1 : ℤ)):ℚ) = ((((k:ℤ) - 1 : ℤ)):ℚ) := by
        rw [fl_eval_pos _ (by exact_mod_cast hu_pos)]
        exact flPos_int _ hu_pos hu53
      rw [hflu, show ((((k:ℕ):ℤ) - 1 : ℤ):ℚ) = ((k:ℕ):ℚ) - 1 by push_cast; ring]

theorem usdc_roundtrip_within_one_unit_witness :
    formatUsdc (parseUsdc (fl (((123456789:ℕ):ℚ)/1000000))) =
      fl (((123456789:ℕ):ℚ)/1000000) ∨
    formatUsdc (parseUsdc (fl (((123456789:ℕ):ℚ)/1000000))) =
      fl ((((123456789:ℕ):ℚ)-1)/1000000) :=
  usdc_roundtrip_within_one_unit 123456789 (by norm_num) (by norm_num)

/-- C6 counterexample: `parseUsdc (-1)` neither fails nor clamps — it
returns the negative atomic value -1000000 — and `createLoanOffer` on a
connected session proceeds all the way to a successful submission with that
negative amount; nothing rejects it before the Payload Builder. -/
theorem negative_amount_counterexample :
    parseUsdc (-1) = -1000000 ∧
    createLoanOffer stConnected okOracles (-1) 5 30 150 =
      Except.ok (TxResult.success "0xhash" ("committed:" ++ "0xhash")) := by
  constructor
  · have h1 : fl ((-1:ℚ) * 1000000) = -flPos ((1000000:ℚ)) := by
      rw [show ((-1:ℚ) * 1000000) = -(1000000:ℚ) by norm_num]
      rw [fl_eval_neg _ (by norm_num), neg_neg]
    have h2 : flPos ((1000000:ℚ)) = 8589934592000000 * (2:ℚ)^(-33:ℤ) := by
      rw [flPos_eval_lo _ (-33) 8589934592000000 (by with_unfolding_all decide)
        (by with_unfolding_all decide) (by with_unfolding_all decide)]
      norm_num
    unfold parseUsdc
    rw [h1, h2]
    with_unfolding_all decide
  · rfl
